import Mathlib

/-!
Shallow embedding of the `berror` error-handling core of the go-brick
repository (package `berror`: `error.go`, plus the earlier variant of the
same package kept in the repository that carries the stack-capture helpers
`callers`/`Tracking`).

Machine integers of the source (`int`) are modelled as `Int`; Go slices
that may be `nil` are modelled as `Option (List _)` so the `nil` / empty
distinction the source tests for (`d.stack == nil || len(d.stack) == 0`)
is preserved; Go interface values that may be `nil` are modelled as
`Option _` or by a dedicated constructor.  A Go function that can panic
is modelled as returning `Option _`, with `none` standing for the panic
(nil-pointer dereference).
-/

namespace berror

/-- Modelled from the spec: `bcode.Code` is a repository package that is not
under `src/`; the spec treats it as an opaque comparable token that "must
support conversion to a canonical integer" (`ToInt`). -/
structure Code where
  ToInt : Int
deriving DecidableEq, Repr

/-- A Go value (`any` / `interface{}`), as far as the claims need it: an
opaque primitive, or a value that implements the structured-encoding
capability (`zapcore.ObjectMarshaler`), whose own encoding is modelled as
the list of string fields it writes. -/
inductive GoValue where
  | str (s : String)
  | int (n : Int)
  | marshaler (pairs : List (String × String))
deriving DecidableEq, Repr

/-- Modelled from the spec: `bstatus.Status` is a repository package that is
not under `src/`; the spec describes it as an immutable value exposing
`Code() Code`, `Reason() string`, `Detail() any`. -/
structure bstatus.Status where
  code : Code
  reason : String
  detail : Option GoValue
deriving DecidableEq, Repr

/-- Modelled from the spec: `bstatus.New(code, reason, detail)` builds the
immutable status triple. -/
def bstatus.New (code : Code) (reason : String) (detail : Option GoValue) : bstatus.Status :=
  ⟨code, reason, detail⟩

/-- Modelled from the spec: `bstatus.Unknown` is the reserved "unknown"
sentinel status returned by `Status()` on a nil receiver.  Its concrete
code value is out of scope for the spec; it is modelled as an arbitrary
fixed token. -/
def bstatus.Unknown : bstatus.Status :=
  ⟨⟨-1⟩, "unknown", none⟩

mutual
/-- A Go `error` interface value in the universe the claims range over:
an opaque external error (`plain`), a typed-nil `*defaultError` carried in
a non-nil interface (`chainedNil`), or a non-nil `*defaultError`
(`chainedSome`). -/
inductive goErr where
  | plain (msg : String)
  | chainedNil
  | chainedSome (d : defaultError)

/-- The `err error` field of `defaultError`: `noErr` models the nil
interface, `val e` a non-nil interface holding `e`. -/
inductive errField where
  | noErr
  | val (e : goErr)

/-- `defaultError` from `berror/error.go`: original error, business status
(nilable interface), and the stack captured or inherited at creation
(nilable slice of frame tokens). -/
inductive defaultError where
  | mk (err : errField) (status : Option bstatus.Status) (stack : Option (List Nat))
end

def defaultError.err : defaultError → errField
  | .mk e _ _ => e

def defaultError.status : defaultError → Option bstatus.Status
  | .mk _ s _ => s

def defaultError.stack : defaultError → Option (List Nat)
  | .mk _ _ s => s

/-- `Status()`: nil receiver returns the `bstatus.Unknown` sentinel,
otherwise the (possibly nil) status field. -/
def defaultError.Status : Option defaultError → Option bstatus.Status
  | none => some bstatus.Unknown
  | some d => d.status

/-- `Stack()`: returns the collected stack; a nil receiver, nil stack or
empty stack yields a fresh empty `bstack.StackList{}` (never nil — the
plain-`List` return type encodes the non-nil guarantee). -/
def defaultError.Stack : Option defaultError → List Nat
  | none => []
  | some d =>
    match d.stack with
    | none => []
    | some s => if s.length = 0 then [] else s

/-- `Cause()`: the wrapped cause; nil receiver returns nil. -/
def defaultError.Cause : Option defaultError → errField
  | none => .noErr
  | some d => d.err

/-- `Unwrap()`: Go 1.13 chain compatibility, same body as `Cause`. -/
def defaultError.Unwrap : Option defaultError → errField
  | none => .noErr
  | some d => d.err

mutual
/-- The recursive JSON summary tree (`code`, `reason`, `detail`, `next`)
built by `format()`. -/
inductive Summary where
  | mk (code : Code) (reason : String) (detail : Option GoValue) (next : Next)

/-- The three shapes the `next` field can take: JSON null, a plain string
(opaque cause's `Error()`), or a nested summary. -/
inductive Next where
  | null
  | str (s : String)
  | sum (s : Summary)
end

def Summary.next : Summary → Next
  | .mk _ _ _ n => n

mutual
/-- `format()` from `berror/error.go`: `nil` receiver or `nil` status yields
a nil `*summary` (modelled `none`); otherwise the status triple plus a
`next` computed from the `err` field. -/
def defaultError.format : defaultError → Option Summary
  | .mk e st _ =>
    match st with
    | none => none
    | some s => some (.mk s.code s.reason s.detail (formatNext e))

/-- The `next` field of a summary: null for no cause; for a `*defaultError`
cause the recursive summary (null again when that recursion yields a nil
summary — typed-nil cause or nil status); for an opaque cause its
`Error()` string. -/
def formatNext : errField → Next
  | .noErr => .null
  | .val (.plain m) => .str m
  | .val .chainedNil => .null
  | .val (.chainedSome d) =>
    match defaultError.format d with
    | none => .null
    | some s => .sum s
end

/-- One character of jsoniter's `ConfigCompatibleWithStandardLibrary`
string escaping (standard-library `encoding/json` escaping, HTML escape
on). -/
def hexDigit (n : Nat) : Char :=
  if n < 10 then Char.ofNat (48 + n) else Char.ofNat (87 + n)

def escapeChar (c : Char) : String :=
  if c = '"' then "\\\""
  else if c = '\\' then "\\\\"
  else if c = '\n' then "\\n"
  else if c = '\r' then "\\r"
  else if c = '\t' then "\\t"
  else if c = '<' then "\\u003c"
  else if c = '>' then "\\u003e"
  else if c = '&' then "\\u0026"
  else if c.toNat < 32 then
    "\\u00" ++ String.singleton (hexDigit (c.toNat / 16)) ++ String.singleton (hexDigit (c.toNat % 16))
  else if c.toNat = 0x2028 then "\\u2028"
  else if c.toNat = 0x2029 then "\\u2029"
  else String.singleton c

def escapeString (s : String) : String :=
  String.join (s.toList.map escapeChar)

/-- JSON rendering of an opaque Go value held in the `detail` field. -/
def renderValue : GoValue → String
  | .str s => "\"" ++ escapeString s ++ "\""
  | .int n => toString n
  | .marshaler pairs =>
    "\x7b" ++ String.intercalate ","
      (pairs.map (fun p => "\"" ++ escapeString p.1 ++ "\":\"" ++ escapeString p.2 ++ "\"")) ++ "\x7d"

def renderDetail : Option GoValue → String
  | none => "null"
  | some v => renderValue v

mutual
/-- Compact JSON of the summary tree, in the struct field order of
`summary` (`code`, `reason`, `detail`, `next`); `code` marshals through its
canonical integer form. -/
def renderSummary : Summary → String
  | .mk c r dt nx =>
    "\x7b\"code\":" ++ toString c.ToInt ++ ",\"reason\":\"" ++ escapeString r ++
      "\",\"detail\":" ++ renderDetail dt ++ ",\"next\":" ++ renderNext nx ++ "\x7d"

/-- Rendering of the `next` field value. -/
def renderNext : Next → String
  | .null => "null"
  | .str s => "\"" ++ escapeString s ++ "\""
  | .sum s => renderSummary s
end

/-- `Error()`: empty string on a nil receiver; otherwise the JSON encoding
of `format()` (a nil `*summary` marshals as `null`). -/
def defaultError.Error : Option defaultError → String
  | none => ""
  | some d =>
    match defaultError.format d with
    | none => "null"
    | some s => renderSummary s

/-!
Structured-log encoding (`MarshalLogObject`, zapcore.ObjectMarshaler impl).
The encoder capability is modelled as the ordered list of fields written
into it; `AddObject` errors are discarded by the source (`_ =`), and the
named return `err` is never assigned, so the Go return value is nil on
every non-panicking path.
-/

/-- A field written into the structured encoder: `AddInt`, `AddString`,
`AddObject` (nested field list) or `AddReflected`. -/
inductive Field where
  | int (name : String) (v : Int)
  | str (name : String) (v : String)
  | obj (name : String) (fields : List Field)
  | reflected (name : String) (v : GoValue)

/-- Fields written by an external `zapcore.ObjectMarshaler` detail value
(its own encoding is opaque; modelled as string fields). -/
def fieldsOfPairs (pairs : List (String × String)) : List Field :=
  pairs.map (fun p => Field.str p.1 p.2)

/-- Body of `MarshalLogObject` on a non-nil receiver: `none` models a
nil-pointer panic (`status.Code()` on a nil status interface, or the
nested encoding of a typed-nil / nil-status `*defaultError` cause through
`AddObject`).  Field order follows the source: `code`, `reason`, `detail`
(only when the detail is non-nil; as a nested object when it implements
`zapcore.ObjectMarshaler`, reflected otherwise), then `next` (nested
object for a `*defaultError` cause, `AddString` of `Error()` for an opaque
cause, nothing when there is no cause). -/
def marshalDE : defaultError → Option (List Field)
  | .mk e st _ =>
    match st with
    | none => none
    | some s =>
      let base := [Field.int "code" s.code.ToInt, Field.str "reason" s.reason]
      let detailF :=
        match s.detail with
        | none => []
        | some (GoValue.marshaler pairs) => [Field.obj "detail" (fieldsOfPairs pairs)]
        | some v => [Field.reflected "detail" v]
      match e with
      | .noErr => some (base ++ detailF)
      | .val .chainedNil => none
      | .val (.chainedSome next) =>
        match marshalDE next with
        | none => none
        | some nf => some (base ++ detailF ++ [Field.obj "next" nf])
      | .val (.plain m) => some (base ++ detailF ++ [Field.str "next" m])

/-- `MarshalLogObject` at the receiver level: the method reads `d.status`
with no nil-receiver guard, so a nil receiver panics (`none`); otherwise
it returns the fields written and the Go return value, which is always
nil (`none` in the pair) because the named return is never assigned and
all `AddObject` errors are discarded. -/
def defaultError.MarshalLogObject : Option defaultError → Option (List Field × Option String)
  | none => none
  | some d => (marshalDE d).map (fun fs => (fs, none))

/-!
Constructors from `berror/error.go`.  `bstack.TakeStack(skip+1,
bstack.StacktraceMax)` lives in a repository package not under `src/`; it
is abstracted as a parameter `takeStack : Int → List Nat` giving the
freshly captured stack for each skip value (the constant second argument
is folded away).  A constructor result of `none` models a panic: when the
cause is a typed-nil `*defaultError`, the inheritance branch reads
`orig.stack` through a nil pointer.
-/

/-- `New(status, err...)`: wraps the first optional cause, inherits the
cause's stack when the cause is a `*defaultError`, and otherwise (or when
the inherited stack is nil) captures a fresh stack with skip 1. -/
def New (status : Option bstatus.Status) (errs : List errField)
    (takeStack : Int → List Nat) : Option defaultError :=
  match errs with
  | [] => some (.mk .noErr status (some (takeStack 1)))
  | e0 :: _ =>
    match e0 with
    | .val .chainedNil => none
    | .val (.chainedSome orig) =>
      match orig.stack with
      | some s => some (.mk e0 status (some s))
      | none => some (.mk e0 status (some (takeStack 1)))
    | _ => some (.mk e0 status (some (takeStack 1)))

/-- `NewWithSkip(err, status, skip)`: same inheritance rule as `New`, but a
fresh capture uses the caller-supplied extra skip (`TakeStack(skip+1, …)`). -/
def NewWithSkip (err : errField) (status : Option bstatus.Status) (skip : Int)
    (takeStack : Int → List Nat) : Option defaultError :=
  match err with
  | .noErr => some (.mk .noErr status (some (takeStack (skip + 1))))
  | .val .chainedNil => none
  | .val (.chainedSome orig) =>
    match orig.stack with
    | some s => some (.mk err status (some s))
    | none => some (.mk err status (some (takeStack (skip + 1))))
  | .val (.plain _) => some (.mk err status (some (takeStack (skip + 1))))

/-- Modelled from the spec: category codes of the `bcode` repository package
(not under `src/`); the spec keeps the concrete enumeration out of scope,
so these are arbitrary distinct opaque tokens. -/
def bcode.InvalidArgument : Code := ⟨400⟩

def bcode.NotFound : Code := ⟨404⟩

def bcode.RequestTimeout : Code := ⟨408⟩

def bcode.GatewayTimeout : Code := ⟨504⟩

def bcode.ClientClosed : Code := ⟨499⟩

def bcode.AlreadyExists : Code := ⟨409⟩

def bcode.InternalError : Code := ⟨500⟩

/-- `var ds any = nil; if len(detail) > 0 { ds = detail[0] }`. -/
def firstDetail : List (Option GoValue) → Option GoValue
  | [] => none
  | d :: _ => d

/-- Plain text of a Go value for the `fmt.Sprintf` model. -/
def fmtText : GoValue → String
  | .str s => s
  | .int n => toString n
  | .marshaler _ => "\x7bobj\x7d"

/-- Modelled from the spec: Go's standard-library `fmt.Sprintf` is outside
the repository; modelled as sequential substitution of rendered arguments
for `%v` / `%s` / `%d` verbs. -/
def sprintfAux : List Char → List GoValue → String
  | [], _ => ""
  | '%' :: 'v' :: rest, a :: args => fmtText a ++ sprintfAux rest args
  | '%' :: 's' :: rest, a :: args => fmtText a ++ sprintfAux rest args
  | '%' :: 'd' :: rest, a :: args => fmtText a ++ sprintfAux rest args
  | c :: rest, args => String.singleton c ++ sprintfAux rest args

/-- See `sprintfAux`. -/
def sprintf (format : String) (args : List GoValue) : String :=
  sprintfAux format.toList args

/-- `NewInvalidArgument(err, reason, detail...)`. -/
def NewInvalidArgument (err : errField) (reason : String) (detail : List (Option GoValue))
    (takeStack : Int → List Nat) : Option defaultError :=
  NewWithSkip err (some (bstatus.New bcode.InvalidArgument reason (firstDetail detail))) 1 takeStack

/-- `NewInvalidArgumentf(err, format, args...)`. -/
def NewInvalidArgumentf (err : errField) (format : String) (args : List GoValue)
    (takeStack : Int → List Nat) : Option defaultError :=
  NewWithSkip err (some (bstatus.New bcode.InvalidArgument (sprintf format args) none)) 1 takeStack

/-- `NewNotFound(err, reason, detail...)`. -/
def NewNotFound (err : errField) (reason : String) (detail : List (Option GoValue))
    (takeStack : Int → List Nat) : Option defaultError :=
  NewWithSkip err (some (bstatus.New bcode.NotFound reason (firstDetail detail))) 1 takeStack

/-- `NewNotFoundf(err, format, args...)`. -/
def NewNotFoundf (err : errField) (format : String) (args : List GoValue)
    (takeStack : Int → List Nat) : Option defaultError :=
  NewWithSkip err (some (bstatus.New bcode.NotFound (sprintf format args) none)) 1 takeStack

/-- `NewRequestTimeout(err, reason, detail...)`. -/
def NewRequestTimeout (err : errField) (reason : String) (detail : List (Option GoValue))
    (takeStack : Int → List Nat) : Option defaultError :=
  NewWithSkip err (some (bstatus.New bcode.RequestTimeout reason (firstDetail detail))) 1 takeStack

/-- `NewRequestTimeoutf(err, format, args...)`. -/
def NewRequestTimeoutf (err : errField) (format : String) (args : List GoValue)
    (takeStack : Int → List Nat) : Option defaultError :=
  NewWithSkip err (some (bstatus.New bcode.RequestTimeout (sprintf format args) none)) 1 takeStack

/-- `NewGatewayTimeout(err, reason, detail...)`. -/
def NewGatewayTimeout (err : errField) (reason : String) (detail : List (Option GoValue))
    (takeStack : Int → List Nat) : Option defaultError :=
  NewWithSkip err (some (bstatus.New bcode.GatewayTimeout reason (firstDetail detail))) 1 takeStack

/-- `NewGatewayTimeoutf(err, format, args...)`. -/
def NewGatewayTimeoutf (err : errField) (format : String) (args : List GoValue)
    (takeStack : Int → List Nat) : Option defaultError :=
  NewWithSkip err (some (bstatus.New bcode.GatewayTimeout (sprintf format args) none)) 1 takeStack

/-- `NewClientClose(err, reason, detail...)`. -/
def NewClientClose (err : errField) (reason : String) (detail : List (Option GoValue))
    (takeStack : Int → List Nat) : Option defaultError :=
  NewWithSkip err (some (bstatus.New bcode.ClientClosed reason (firstDetail detail))) 1 takeStack

/-- `NewClientClosef(err, format, args...)`. -/
def NewClientClosef (err : errField) (format : String) (args : List GoValue)
    (takeStack : Int → List Nat) : Option defaultError :=
  NewWithSkip err (some (bstatus.New bcode.ClientClosed (sprintf format args) none)) 1 takeStack

/-- `NewAlreadyExists(err, reason, detail...)`. -/
def NewAlreadyExists (err : errField) (reason : String) (detail : List (Option GoValue))
    (takeStack : Int → List Nat) : Option defaultError :=
  NewWithSkip err (some (bstatus.New bcode.AlreadyExists reason (firstDetail detail))) 1 takeStack

/-- `NewAlreadyExistsf(err, format, args...)`. -/
def NewAlreadyExistsf (err : errField) (format : String) (args : List GoValue)
    (takeStack : Int → List Nat) : Option defaultError :=
  NewWithSkip err (some (bstatus.New bcode.AlreadyExists (sprintf format args) none)) 1 takeStack

/-- `NewInternalError(err, reason, detail...)`. -/
def NewInternalError (err : errField) (reason : String) (detail : List (Option GoValue))
    (takeStack : Int → List Nat) : Option defaultError :=
  NewWithSkip err (some (bstatus.New bcode.InternalError reason (firstDetail detail))) 1 takeStack

/-- `NewInternalErrorf(err, format, args...)`. -/
def NewInternalErrorf (err : errField) (format : String) (args : List GoValue)
    (takeStack : Int → List Nat) : Option defaultError :=
  NewWithSkip err (some (bstatus.New bcode.InternalError (sprintf format args) none)) 1 takeStack

/-!
Code-membership query.  `errors.As(err, &e)` with `e` of the package's
`Error` interface type walks the chain: a value of dynamic type
`*defaultError` (including a typed-nil one) is assignable and stops the
walk; an opaque error neither matches nor unwraps, so the walk fails.
-/

/-- Result of `errors.As(e, &target)` over the modelled universe: `none`
means no `Error`-shaped link was found; `some d` is the matched
(possibly typed-nil) `*defaultError`. -/
def errorsAsError : goErr → Option (Option defaultError)
  | .plain _ => none
  | .chainedNil => some none
  | .chainedSome d => some (some d)

/-- `IsCode(err, code)`: false for a nil error or when `errors.As` finds no
structured link; otherwise compares the matched link's
`Status().Code().ToInt()` with `code.ToInt()`.  `none` models the panic
of calling `Code()` on a nil status interface (a non-nil matched link
whose status field is nil). -/
def IsCode (err : errField) (code : Code) : Option Bool :=
  match err with
  | .noErr => some false
  | .val e =>
    match errorsAsError e with
    | none => some false
    | some d =>
      match defaultError.Status d with
      | none => none
      | some st => some (st.code.ToInt == code.ToInt)

/-!
Stack capture and rendering, from the earlier in-repository variant of the
package (`src/unnamed/part_000`): `maxStackDepth`, `callers`, `TraceInfo`,
`Tracking`.  The true call stack is modelled as a list of program-counter
tokens handed to `runtime.Callers`, and frame resolution
(`runtime.FuncForPC(p-1)` + `FileLine(p-1)`) as an abstract
`resolve : Nat → Option (String × String × Int)` giving function name,
file and line for a token, `none` when `FuncForPC` yields nil.
-/

/-- `maxStackDepth = 32`. -/
def maxStackDepth : Nat := 32

/-- `runtime.Callers(skip, pcs[:])` over a synthetic stack: skips `skip`
frames and fills at most `bufLen` entries, returning the filled prefix. -/
def runtimeCallers (stack : List Nat) (skip : Int) (bufLen : Nat) : List Nat :=
  (stack.drop skip.toNat).take bufLen

/-- `callers(skip ...int)`: base skip 3 plus the optional extra skip, into a
buffer of `maxStackDepth` entries. -/
def callers (stack : List Nat) (skip : List Int) : List Nat :=
  let n : Int := 3 + (match skip with | [] => 0 | s :: _ => s)
  runtimeCallers stack n maxStackDepth

/-- `TraceInfo`: function name, file name, line. -/
structure TraceInfo where
  Func : String
  File : String
  Line : Int
deriving DecidableEq, Repr

/-- Loop body of `Tracking`: `index` is the position in the captured stack;
an unresolvable token (`FuncForPC` nil) is skipped without testing the
depth bound, a frame whose file contains `"<"` is dropped (`continue`;
`strings.Contains(file, "<")` with a one-character needle is containment
of the character in the file name),
the loop breaks once `index >= max`, and otherwise the resolved frame is
appended. -/
def trackLoop (resolve : Nat → Option (String × String × Int)) (maxD : Int) :
    Nat → List Nat → List TraceInfo
  | _, [] => []
  | index, p :: rest =>
    match resolve (p - 1) with
    | none => trackLoop resolve maxD (index + 1) rest
    | some (fname, file, line) =>
      if file.toList.contains '<' then trackLoop resolve maxD (index + 1) rest
      else if maxD ≤ (index : Int) then []
      else ⟨fname, file, line⟩ :: trackLoop resolve maxD (index + 1) rest

/-- `Tracking(depth ...int)`: nil receiver, nil stack or empty stack yields
an empty render; the depth bound defaults to the captured length and is
overridden by the first variadic argument. -/
def Tracking (stack : Option (List Nat)) (resolve : Nat → Option (String × String × Int))
    (depth : List Int) : List TraceInfo :=
  match stack with
  | none => []
  | some pcs =>
    if pcs.length = 0 then []
    else
      let maxD : Int := match depth with | [] => (pcs.length : Int) | d :: _ => d
      trackLoop resolve maxD 0 pcs

/-!
Chain-shape analysis used to state the claims: a *well-formed chain* is a
sequence of non-nil `*defaultError` links, each with a non-nil status,
whose innermost link has either no cause or an opaque cause.  `chainShape`
computes its depth (number of structured links) together with the terminal
`next` value of its JSON summary (`null` for no cause, the opaque cause's
`Error()` string otherwise), and is `none` exactly on the chains the
claims exclude (nil status or typed-nil link).
-/

/-- Depth and terminal of a well-formed chain (see section comment). -/
def chainShape : defaultError → Option (Nat × Next)
  | .mk e st _ =>
    match st with
    | none => none
    | some _ =>
      match e with
      | .noErr => some (1, .null)
      | .val (.plain m) => some (1, .str m)
      | .val .chainedNil => none
      | .val (.chainedSome d) =>
        match chainShape d with
        | none => none
        | some (k, t) => some (k + 1, t)

mutual
/-- Number of `(code, reason, detail, next)` levels of a summary tree (the
nested `next` field has `sumDepth s - 1` further levels). -/
def sumDepth : Summary → Nat
  | .mk _ _ _ n => nextDepth n + 1

/-- Levels below a `next` value. -/
def nextDepth : Next → Nat
  | .sum s => sumDepth s
  | .null => 0
  | .str _ => 0
end

mutual
/-- The terminal `next` value a summary tree bottoms out in. -/
def terminal : Summary → Next
  | .mk _ _ _ n => terminalNext n

/-- Terminal of a `next` value. -/
def terminalNext : Next → Next
  | .sum s => terminal s
  | .null => .null
  | .str m => .str m
end

/-- Detail fields written by the structured-log encoding: nothing for a nil
detail, a nested object for a detail implementing the structured-encoding
capability, a reflected value otherwise. -/
def detailFieldsSpec : Option GoValue → List Field
  | none => []
  | some (GoValue.marshaler pairs) => [Field.obj "detail" (fieldsOfPairs pairs)]
  | some v => [Field.reflected "detail" v]

/-- Next-field written by the structured-log encoding: nothing for no
cause, a nested object holding the cause's own encoding for a
`*defaultError` cause, the cause's `Error()` string for an opaque cause. -/
def nextFieldsSpec : errField → List Field
  | .noErr => []
  | .val (.plain m) => [Field.str "next" m]
  | .val .chainedNil => []
  | .val (.chainedSome n) => [Field.obj "next" ((marshalDE n).getD [])]

/-- On a well-formed chain the structured-log encoding body never panics. -/
theorem chainShape_marshalDE : ∀ (k : Nat) (d : defaultError) (t : Next),
    chainShape d = some (k, t) → (marshalDE d).isSome := by
  intro k
  induction k with
  | zero =>
    intro d t h
    exfalso
    obtain ⟨e, st, stk⟩ := d
    cases st with
    | none => simp [chainShape] at h
    | some s0 =>
      cases e with
      | noErr => simp [chainShape] at h
      | val g =>
        cases g with
        | plain m => simp [chainShape] at h
        | chainedNil => simp [chainShape] at h
        | chainedSome d' =>
          simp only [chainShape] at h
          rcases hd : chainShape d' with _ | ⟨k', t'⟩ <;> rw [hd] at h <;> simp at h
  | succ k ih =>
    intro d t h
    obtain ⟨e, st, stk⟩ := d
    cases st with
    | none => simp [chainShape] at h
    | some s0 =>
      cases e with
      | noErr => simp [marshalDE]
      | val g =>
        cases g with
        | plain m => simp [marshalDE]
        | chainedNil => simp [chainShape] at h
        | chainedSome d' =>
          simp only [chainShape] at h
          rcases hd : chainShape d' with _ | ⟨k', t'⟩ <;> rw [hd] at h <;> simp at h
          have hm := ih d' t (by rw [hd, h.1, h.2])
          rcases Option.isSome_iff_exists.mp hm with ⟨nf, hnf⟩
          simp [marshalDE, hnf]

/-- A well-formed `NewWithSkip` result carries exactly the supplied status. -/
theorem NewWithSkip_status (err : errField) (st : bstatus.Status) (skip : Int)
    (ts : Int → List Nat) (e' : defaultError)
    (h : NewWithSkip err (some st) skip ts = some e') : e'.status = some st := by
  cases err with
  | noErr =>
    simp [NewWithSkip] at h
    simp [← h, defaultError.status]
  | val g =>
    cases g with
    | plain m =>
      simp [NewWithSkip] at h
      simp [← h, defaultError.status]
    | chainedNil => simp [NewWithSkip] at h
    | chainedSome orig =>
      simp only [NewWithSkip] at h
      rcases ho : orig.stack with _ | s <;> rw [ho] at h <;> simp at h <;>
        simp [← h, defaultError.status]

/-- Every frame rendered by the `Tracking` loop has a file name free of the
synthetic-frame marker character. -/
theorem trackLoop_file_no_marker (resolve : Nat → Option (String × String × Int)) (maxD : Int) :
    ∀ (l : List Nat) (i : Nat) (t : TraceInfo),
      t ∈ trackLoop resolve maxD i l → t.File.toList.contains '<' = false := by
  intro l
  induction l with
  | nil => intro i t h; simp [trackLoop] at h
  | cons p rest ih =>
    intro i t h
    cases hr : resolve (p - 1) with
    | none =>
      simp only [trackLoop, hr] at h
      exact ih _ _ h
    | some info =>
      obtain ⟨fname, file, line⟩ := info
      simp only [trackLoop, hr] at h
      by_cases hc : file.toList.contains '<' = true
      · simp only [hc, if_true] at h
        exact ih _ _ h
      · simp only [hc, if_false, Bool.false_eq_true] at h
        by_cases hm : maxD ≤ (i : Int)
        · simp only [if_pos hm] at h
          simp at h
        · simp only [if_neg hm] at h
          rcases List.mem_cons.mp h with h1 | h1
          · subst h1
            simpa using hc
          · exact ih _ _ h1

/-- The `Tracking` loop renders at most `maxD - i` frames. -/
theorem trackLoop_length_le (resolve : Nat → Option (String × String × Int)) (maxD : Int) :
    ∀ (l : List Nat) (i : Nat),
      (trackLoop resolve maxD i l).length ≤ (maxD - i).toNat := by
  intro l
  induction l with
  | nil => intro i; simp [trackLoop]
  | cons p rest ih =>
    intro i
    cases hr : resolve (p - 1) with
    | none =>
      simp only [trackLoop, hr]
      exact le_trans (ih (i + 1)) (by omega)
    | some info =>
      obtain ⟨fname, file, line⟩ := info
      simp only [trackLoop, hr]
      by_cases hc : file.toList.contains '<' = true
      · simp only [hc, if_true]
        exact le_trans (ih (i + 1)) (by omega)
      · simp only [hc, if_false, Bool.false_eq_true]
        by_cases hm : maxD ≤ (i : Int)
        · simp [hm]
        · simp only [if_neg hm, List.length_cons]
          have := ih (i + 1)
          omega

/-- When the depth bound can never fire, the `Tracking` loop renders exactly
the resolvable, non-marker frames in order. -/
theorem trackLoop_no_break (resolve : Nat → Option (String × String × Int)) (maxD : Int) :
    ∀ (l : List Nat) (i : Nat), (i : Int) + l.length ≤ maxD →
      trackLoop resolve maxD i l =
        l.filterMap (fun p =>
          match resolve (p - 1) with
          | none => none
          | some (fname, file, line) =>
            if file.toList.contains '<' then none else some ⟨fname, file, line⟩) := by
  intro l
  induction l with
  | nil => intro i _; simp [trackLoop]
  | cons p rest ih =>
    intro i hle
    simp only [List.length_cons] at hle
    cases hr : resolve (p - 1) with
    | none =>
      simp only [trackLoop, hr, List.filterMap_cons]
      rw [ih (i + 1) (by push_cast at hle ⊢; omega)]
    | some info =>
      obtain ⟨fname, file, line⟩ := info
      simp only [trackLoop, hr, List.filterMap_cons]
      by_cases hc : file.toList.contains '<' = true
      · simp only [hc, if_true]
        rw [ih (i + 1) (by push_cast at hle ⊢; omega)]
      · have hm : ¬ (maxD ≤ (i : Int)) := by push_cast at hle; omega
        simp only [hc, if_false, Bool.false_eq_true, if_neg hm]
        rw [ih (i + 1) (by push_cast at hle ⊢; omega)]

/-!
Claim theorems.
-/

/-- C1 (amended): on the typed-nil receiver, the five accessor methods
return their documented empty results — `Error()` the empty string,
`Status()` the unknown sentinel, `Stack()` the empty (non-nil by type)
sequence, `Cause()` and `Unwrap()` the nil error — but the structured-log
encoding method is excluded: it has no nil-receiver guard (see the
counterexample). -/
theorem claim_C1_nil_receiver_methods :
    defaultError.Error none = ""
      ∧ defaultError.Status none = some bstatus.Unknown
      ∧ defaultError.Stack none = []
      ∧ defaultError.Cause none = .noErr
      ∧ defaultError.Unwrap none = .noErr :=
  ⟨rfl, rfl, rfl, rfl, rfl⟩

/-- C1 counterexample: `MarshalLogObject` on the typed-nil receiver reads
`d.status` through the nil pointer and faults (`none` models the panic),
so the claim that every method of the nil receiver returns without
failing is false. -/
theorem claim_C1_counterexample : defaultError.MarshalLogObject none = none := rfl

/-- C2: when the cause is a non-nil `*defaultError` carrying a stack `S`,
both `New` and `NewWithSkip` (for every skip) return an error holding that
same stack `S` (the field is assigned by reference-sharing in the source,
with no copy), `Stack()` on the result yields `S`, and no fresh capture is
performed: the result does not depend on the stack-capture function at
all. -/
theorem claim_C2_stack_inheritance :
    ∀ (st : Option bstatus.Status) (orig : defaultError) (s : List Nat)
      (ts ts' : Int → List Nat) (skip : Int), orig.stack = some s →
      New st [.val (.chainedSome orig)] ts = some (.mk (.val (.chainedSome orig)) st (some s))
        ∧ New st [.val (.chainedSome orig)] ts = New st [.val (.chainedSome orig)] ts'
        ∧ defaultError.Stack (New st [.val (.chainedSome orig)] ts) = s
        ∧ NewWithSkip (.val (.chainedSome orig)) st skip ts
            = some (.mk (.val (.chainedSome orig)) st (some s))
        ∧ NewWithSkip (.val (.chainedSome orig)) st skip ts
            = NewWithSkip (.val (.chainedSome orig)) st skip ts'
        ∧ defaultError.Stack (NewWithSkip (.val (.chainedSome orig)) st skip ts) = s := by
  intro st orig s ts ts' skip h
  have hN : New st [.val (.chainedSome orig)] ts
      = some (.mk (.val (.chainedSome orig)) st (some s)) := by
    simp [New, h]
  have hN' : New st [.val (.chainedSome orig)] ts'
      = some (.mk (.val (.chainedSome orig)) st (some s)) := by
    simp [New, h]
  have hW : NewWithSkip (.val (.chainedSome orig)) st skip ts
      = some (.mk (.val (.chainedSome orig)) st (some s)) := by
    simp [NewWithSkip, h]
  have hW' : NewWithSkip (.val (.chainedSome orig)) st skip ts'
      = some (.mk (.val (.chainedSome orig)) st (some s)) := by
    simp [NewWithSkip, h]
  refine ⟨hN, hN.trans hN'.symm, ?_, hW, hW.trans hW'.symm, ?_⟩
  · rw [hN]
    rcases s with _ | ⟨a, s⟩ <;> simp [defaultError.Stack, defaultError.stack]
  · rw [hW]
    rcases s with _ | ⟨a, s⟩ <;> simp [defaultError.Stack, defaultError.stack]

/-- C2 witness at a concrete two-frame inherited stack. -/
theorem claim_C2_witness :
    (defaultError.mk .noErr (some (bstatus.New ⟨2⟩ "x" none)) (some [10, 11])).stack
        = some [10, 11]
      ∧ New (some (bstatus.New ⟨1⟩ "w" none))
          [.val (.chainedSome (.mk .noErr (some (bstatus.New ⟨2⟩ "x" none)) (some [10, 11])))]
          (fun _ => [99])
        = some (.mk
            (.val (.chainedSome (.mk .noErr (some (bstatus.New ⟨2⟩ "x" none)) (some [10, 11]))))
            (some (bstatus.New ⟨1⟩ "w" none)) (some [10, 11])) :=
  ⟨rfl, (claim_C2_stack_inheritance (some (bstatus.New ⟨1⟩ "w" none))
    (.mk .noErr (some (bstatus.New ⟨2⟩ "x" none)) (some [10, 11])) [10, 11]
    (fun _ => [99]) (fun _ => [98]) 5 rfl).1⟩

/-- C4 (amended): `IsCode` returns false for a nil error and for an error
with no `Error`-shaped link in its chain; when the first (outermost)
structured link is typed-nil it compares the unknown sentinel's code, and
when that link is non-nil with a non-nil status it compares that status's
code — in canonical integer form in both cases.  It never scans past the
first structured link (the result is independent of the deeper chain).
When the first link is non-nil with a nil status the query panics instead
of returning (see the counterexample). -/
theorem claim_C4_isCode : ∀ (code : Code),
    IsCode .noErr code = some false
      ∧ (∀ m, IsCode (.val (.plain m)) code = some false)
      ∧ IsCode (.val .chainedNil) code = some (bstatus.Unknown.code.ToInt == code.ToInt)
      ∧ (∀ (e : errField) (stk : Option (List Nat)) (st : bstatus.Status),
          IsCode (.val (.chainedSome (.mk e (some st) stk))) code
            = some (st.code.ToInt == code.ToInt))
      ∧ (∀ (e : errField) (stk : Option (List Nat)),
          IsCode (.val (.chainedSome (.mk e none stk))) code = none)
      ∧ (∀ (e₁ e₂ : errField) (st : Option bstatus.Status) (stk : Option (List Nat)),
          IsCode (.val (.chainedSome (.mk e₁ st stk))) code
            = IsCode (.val (.chainedSome (.mk e₂ st stk))) code) := by
  intro code
  refine ⟨rfl, fun m => rfl, rfl, ?_, ?_, ?_⟩
  · intro e stk st
    simp [IsCode, errorsAsError, defaultError.Status, defaultError.status]
  · intro e stk
    simp [IsCode, errorsAsError, defaultError.Status, defaultError.status]
  · intro e₁ e₂ st stk
    cases st <;> simp [IsCode, errorsAsError, defaultError.Status, defaultError.status]

/-- C4 counterexample: on an error whose first structured link is non-nil
but carries a nil status, `IsCode` calls `Code()` on a nil status
interface and panics (`none`), so it neither returns true nor false. -/
theorem claim_C4_counterexample :
    IsCode (.val (.chainedSome (.mk .noErr none none))) ⟨2⟩ = none := rfl

/-- C5: the claim says construction never panics, including for a typed-nil
`*defaultError` cause passed through the error interface; but on that
input the inheritance branch of both constructors reads `orig.stack`
through a nil pointer and panics (`none` models the panic). -/
theorem claim_C5_construction_panics :
    New (some (bstatus.New ⟨7⟩ "boom" none)) [.val .chainedNil] (fun _ => [1, 2]) = none
      ∧ NewWithSkip (.val .chainedNil) (some (bstatus.New ⟨7⟩ "boom" none)) 0
          (fun _ => [1, 2]) = none :=
  ⟨rfl, rfl⟩

/-- C8: `callers` fills a fixed `[maxStackDepth]uintptr` buffer, so for
every synthetic call stack and every variadic skip it returns at most 32
frame tokens. -/
theorem claim_C8_callers_bounded :
    maxStackDepth = 32
      ∧ ∀ (stack : List Nat) (skip : List Int),
          (callers stack skip).length ≤ maxStackDepth := by
  refine ⟨rfl, fun stack skip => ?_⟩
  simp only [callers, runtimeCallers, List.length_take]
  omega

/-- C3: for a chain of depth `k` (k non-nil `*defaultError` links, each
with a non-nil status), `format()` yields a summary tree of exactly `k`
nesting levels — the `next` field carries exactly `k - 1` further levels —
terminating in null when the innermost link has no cause and in the
opaque cause's `Error()` string otherwise, and `Error()` is the compact
JSON rendering of that tree.  The tree mirrors the cause chain exactly:
no flattening, no truncation. -/
theorem claim_C3_error_json_shape : ∀ (k : Nat) (d : defaultError) (t : Next),
    chainShape d = some (k, t) →
    ∃ s, defaultError.format d = some s ∧ sumDepth s = k ∧ terminal s = t ∧
      defaultError.Error (some d) = renderSummary s := by
  intro k
  induction k with
  | zero =>
    intro d t h
    exfalso
    obtain ⟨e, st, stk⟩ := d
    cases st with
    | none => simp [chainShape] at h
    | some s0 =>
      cases e with
      | noErr => simp [chainShape] at h
      | val g =>
        cases g with
        | plain m => simp [chainShape] at h
        | chainedNil => simp [chainShape] at h
        | chainedSome d' =>
          simp only [chainShape] at h
          rcases hd : chainShape d' with _ | ⟨k', t'⟩ <;> rw [hd] at h <;> simp at h
  | succ k ih =>
    intro d t h
    obtain ⟨e, st, stk⟩ := d
    cases st with
    | none => simp [chainShape] at h
    | some s0 =>
      cases e with
      | noErr =>
        simp only [chainShape, Option.some.injEq, Prod.mk.injEq] at h
        obtain ⟨hk, ht⟩ := h
        subst ht
        refine ⟨.mk s0.code s0.reason s0.detail .null, ?_, ?_, ?_, ?_⟩
        · simp [defaultError.format, formatNext]
        · simp [sumDepth, nextDepth]; omega
        · simp [terminal, terminalNext]
        · simp [defaultError.Error, defaultError.format, formatNext]
      | val g =>
        cases g with
        | plain m =>
          simp only [chainShape, Option.some.injEq, Prod.mk.injEq] at h
          obtain ⟨hk, ht⟩ := h
          subst ht
          refine ⟨.mk s0.code s0.reason s0.detail (.str m), ?_, ?_, ?_, ?_⟩
          · simp [defaultError.format, formatNext]
          · simp [sumDepth, nextDepth]; omega
          · simp [terminal, terminalNext]
          · simp [defaultError.Error, defaultError.format, formatNext]
        | chainedNil => simp [chainShape] at h
        | chainedSome d' =>
          simp only [chainShape] at h
          rcases hd : chainShape d' with _ | ⟨k', t'⟩ <;> rw [hd] at h <;> simp at h
          obtain ⟨s', hs', hdep, hterm, herr⟩ := ih d' t (by rw [hd, h.1, h.2])
          refine ⟨.mk s0.code s0.reason s0.detail (.sum s'), ?_, ?_, ?_, ?_⟩
          · simp [defaultError.format, formatNext, hs']
          · simp [sumDepth, nextDepth, hdep]
          · simp [terminal, terminalNext, hterm]
          · simp [defaultError.Error, defaultError.format, formatNext, hs']

/-- C3 witness: a concrete chain of depth 2 whose innermost link has no
cause. -/
theorem claim_C3_witness :
    chainShape (.mk
        (.val (.chainedSome (.mk .noErr (some (bstatus.New ⟨21⟩ "inner" none)) (some [4]))))
        (some (bstatus.New ⟨22⟩ "outer" none)) (some [4]))
      = some (2, .null)
    ∧ ∃ s, defaultError.format (.mk
          (.val (.chainedSome (.mk .noErr (some (bstatus.New ⟨21⟩ "inner" none)) (some [4]))))
          (some (bstatus.New ⟨22⟩ "outer" none)) (some [4])) = some s
        ∧ sumDepth s = 2 ∧ terminal s = .null
        ∧ defaultError.Error (some (.mk
            (.val (.chainedSome (.mk .noErr (some (bstatus.New ⟨21⟩ "inner" none)) (some [4]))))
            (some (bstatus.New ⟨22⟩ "outer" none)) (some [4]))) = renderSummary s :=
  ⟨rfl, claim_C3_error_json_shape 2
    (.mk (.val (.chainedSome (.mk .noErr (some (bstatus.New ⟨21⟩ "inner" none)) (some [4]))))
      (some (bstatus.New ⟨22⟩ "outer" none)) (some [4])) .null rfl⟩

/-- C6: every category convenience constructor is the single call
`NewWithSkip(err, bstatus.New(categoryCode, reason-or-formatted, firstDetail), 1)`,
and (when it returns) the result's status carries exactly the category
code, the supplied reason (or the formatted string for the `*f` variants)
and the first supplied detail (nil detail for the `*f` variants). -/
theorem claim_C6_convenience_constructors :
    ∀ (err : errField) (reason : String) (detail : List (Option GoValue))
      (fmtStr : String) (args : List GoValue) (ts : Int → List Nat),
      (NewInvalidArgument err reason detail ts
          = NewWithSkip err (some (bstatus.New bcode.InvalidArgument reason (firstDetail detail))) 1 ts
        ∧ ∀ e', NewInvalidArgument err reason detail ts = some e' →
            e'.status = some (bstatus.New bcode.InvalidArgument reason (firstDetail detail)))
      ∧ (NewInvalidArgumentf err fmtStr args ts
          = NewWithSkip err (some (bstatus.New bcode.InvalidArgument (sprintf fmtStr args) none)) 1 ts
        ∧ ∀ e', NewInvalidArgumentf err fmtStr args ts = some e' →
            e'.status = some (bstatus.New bcode.InvalidArgument (sprintf fmtStr args) none))
      ∧ (NewNotFound err reason detail ts
          = NewWithSkip err (some (bstatus.New bcode.NotFound reason (firstDetail detail))) 1 ts
        ∧ ∀ e', NewNotFound err reason detail ts = some e' →
            e'.status = some (bstatus.New bcode.NotFound reason (firstDetail detail)))
      ∧ (NewNotFoundf err fmtStr args ts
          = NewWithSkip err (some (bstatus.New bcode.NotFound (sprintf fmtStr args) none)) 1 ts
        ∧ ∀ e', NewNotFoundf err fmtStr args ts = some e' →
            e'.status = some (bstatus.New bcode.NotFound (sprintf fmtStr args) none))
      ∧ (NewRequestTimeout err reason detail ts
          = NewWithSkip err (some (bstatus.New bcode.RequestTimeout reason (firstDetail detail))) 1 ts
        ∧ ∀ e', NewRequestTimeout err reason detail ts = some e' →
            e'.status = some (bstatus.New bcode.RequestTimeout reason (firstDetail detail)))
      ∧ (NewRequestTimeoutf err fmtStr args ts
          = NewWithSkip err (some (bstatus.New bcode.RequestTimeout (sprintf fmtStr args) none)) 1 ts
        ∧ ∀ e', NewRequestTimeoutf err fmtStr args ts = some e' →
            e'.status = some (bstatus.New bcode.RequestTimeout (sprintf fmtStr args) none))
      ∧ (NewGatewayTimeout err reason detail ts
          = NewWithSkip err (some (bstatus.New bcode.GatewayTimeout reason (firstDetail detail))) 1 ts
        ∧ ∀ e', NewGatewayTimeout err reason detail ts = some e' →
            e'.status = some (bstatus.New bcode.GatewayTimeout reason (firstDetail detail)))
      ∧ (NewGatewayTimeoutf err fmtStr args ts
          = NewWithSkip err (some (bstatus.New bcode.GatewayTimeout (sprintf fmtStr args) none)) 1 ts
        ∧ ∀ e', NewGatewayTimeoutf err fmtStr args ts = some e' →
            e'.status = some (bstatus.New bcode.GatewayTimeout (sprintf fmtStr args) none))
      ∧ (NewClientClose err reason detail ts
          = NewWithSkip err (some (bstatus.New bcode.ClientClosed reason (firstDetail detail))) 1 ts
        ∧ ∀ e', NewClientClose err reason detail ts = some e' →
            e'.status = some (bstatus.New bcode.ClientClosed reason (firstDetail detail)))
      ∧ (NewClientClosef err fmtStr args ts
          = NewWithSkip err (some (bstatus.New bcode.ClientClosed (sprintf fmtStr args) none)) 1 ts
        ∧ ∀ e', NewClientClosef err fmtStr args ts = some e' →
            e'.status = some (bstatus.New bcode.ClientClosed (sprintf fmtStr args) none))
      ∧ (NewAlreadyExists err reason detail ts
          = NewWithSkip err (some (bstatus.New bcode.AlreadyExists reason (firstDetail detail))) 1 ts
        ∧ ∀ e', NewAlreadyExists err reason detail ts = some e' →
            e'.status = some (bstatus.New bcode.AlreadyExists reason (firstDetail detail)))
      ∧ (NewAlreadyExistsf err fmtStr args ts
          = NewWithSkip err (some (bstatus.New bcode.AlreadyExists (sprintf fmtStr args) none)) 1 ts
        ∧ ∀ e', NewAlreadyExistsf err fmtStr args ts = some e' →
            e'.status = some (bstatus.New bcode.AlreadyExists (sprintf fmtStr args) none))
      ∧ (NewInternalError err reason detail ts
          = NewWithSkip err (some (bstatus.New bcode.InternalError reason (firstDetail detail))) 1 ts
        ∧ ∀ e', NewInternalError err reason detail ts = some e' →
            e'.status = some (bstatus.New bcode.InternalError reason (firstDetail detail)))
      ∧ (NewInternalErrorf err fmtStr args ts
          = NewWithSkip err (some (bstatus.New bcode.InternalError (sprintf fmtStr args) none)) 1 ts
        ∧ ∀ e', NewInternalErrorf err fmtStr args ts = some e' →
            e'.status = some (bstatus.New bcode.InternalError (sprintf fmtStr args) none)) := by
  intro err reason detail fmtStr args ts
  refine ⟨⟨rfl, ?_⟩, ⟨rfl, ?_⟩, ⟨rfl, ?_⟩, ⟨rfl, ?_⟩, ⟨rfl, ?_⟩, ⟨rfl, ?_⟩, ⟨rfl, ?_⟩,
    ⟨rfl, ?_⟩, ⟨rfl, ?_⟩, ⟨rfl, ?_⟩, ⟨rfl, ?_⟩, ⟨rfl, ?_⟩, ⟨rfl, ?_⟩, ⟨rfl, ?_⟩⟩ <;>
    exact fun e' h => NewWithSkip_status _ _ _ _ _ h

/-- C6 witness: the invalid-argument constructor at concrete arguments,
with its resulting status. -/
theorem claim_C6_witness :
    NewInvalidArgument .noErr "r" [] (fun _ => [3])
        = NewWithSkip .noErr (some (bstatus.New bcode.InvalidArgument "r" none)) 1 (fun _ => [3])
      ∧ (defaultError.mk .noErr (some (bstatus.New bcode.InvalidArgument "r" none))
          (some [3])).status = some (bstatus.New bcode.InvalidArgument "r" none) :=
  ⟨(claim_C6_convenience_constructors .noErr "r" [] "f%v" [.int 5] (fun _ => [3])).1.1,
    (claim_C6_convenience_constructors .noErr "r" [] "f%v" [.int 5] (fun _ => [3])).1.2
      (defaultError.mk .noErr (some (bstatus.New bcode.InvalidArgument "r" none)) (some [3])) rfl⟩

/-- C7 (amended): structured-log encoding of a non-nil `ChainedError` whose
chain is well-formed (non-nil links, non-nil statuses) adds `code` as its
underlying integer form and `reason` as a string; adds `detail` only when
a detail value is present — as a nested structured object when that value
exposes the structured-encoding capability, as an opaque reflected value
otherwise; then, iff a cause exists, adds a `next` field that is a nested
structured object (the cause's own encoding) when the cause is a
`ChainedError` and the cause's `Error()` string otherwise.  On a typed-nil
`ChainedError` cause the encoding faults instead (see the
counterexample). -/
theorem claim_C7_marshal_fields :
    ∀ (st : bstatus.Status) (stk : Option (List Nat)) (e : errField) (k : Nat) (t : Next),
      chainShape (.mk e (some st) stk) = some (k, t) →
      defaultError.MarshalLogObject (some (.mk e (some st) stk)) =
        some ([Field.int "code" st.code.ToInt, Field.str "reason" st.reason]
          ++ detailFieldsSpec st.detail ++ nextFieldsSpec e, none) := by
  intro st stk e k t h
  cases e with
  | noErr =>
    cases hdv : st.detail with
    | none =>
      simp [defaultError.MarshalLogObject, marshalDE, detailFieldsSpec, nextFieldsSpec, hdv]
    | some v =>
      cases v <;>
        simp [defaultError.MarshalLogObject, marshalDE, detailFieldsSpec, nextFieldsSpec, hdv]
  | val g =>
    cases g with
    | plain m =>
      cases hdv : st.detail with
      | none =>
        simp [defaultError.MarshalLogObject, marshalDE, detailFieldsSpec, nextFieldsSpec, hdv]
      | some v =>
        cases v <;>
          simp [defaultError.MarshalLogObject, marshalDE, detailFieldsSpec, nextFieldsSpec, hdv]
    | chainedNil => simp [chainShape] at h
    | chainedSome n =>
      simp only [chainShape] at h
      rcases hd : chainShape n with _ | ⟨k', t'⟩ <;> rw [hd] at h <;> simp at h
      rcases Option.isSome_iff_exists.mp (chainShape_marshalDE k' n t' hd) with ⟨nf, hnf⟩
      cases hdv : st.detail with
      | none =>
        simp [defaultError.MarshalLogObject, marshalDE, detailFieldsSpec, nextFieldsSpec,
          hdv, hnf]
      | some v =>
        cases v <;>
          simp [defaultError.MarshalLogObject, marshalDE, detailFieldsSpec, nextFieldsSpec,
            hdv, hnf]

/-- C7 witness: a link with an opaque cause and a non-marshaler detail
value. -/
theorem claim_C7_witness :
    chainShape (.mk (.val (.plain "io failure"))
        (some (bstatus.New ⟨31⟩ "v" (some (.str "D")))) none)
      = some (1, .str "io failure")
    ∧ defaultError.MarshalLogObject (some (.mk (.val (.plain "io failure"))
          (some (bstatus.New ⟨31⟩ "v" (some (.str "D")))) none)) =
        some ([Field.int "code" 31, Field.str "reason" "v"]
          ++ detailFieldsSpec (some (.str "D"))
          ++ nextFieldsSpec (.val (.plain "io failure")), none) :=
  ⟨rfl, claim_C7_marshal_fields (bstatus.New ⟨31⟩ "v" (some (.str "D"))) none
    (.val (.plain "io failure")) 1 (.str "io failure") rfl⟩

/-- C7 counterexample: the cause exists and is a (typed-nil) `ChainedError`,
so the claim demands a nested `next` object; but `AddObject` invokes the
nested encoding on the nil receiver, which dereferences `d.status` and
panics (`none`). -/
theorem claim_C7_counterexample :
    defaultError.MarshalLogObject (some (.mk (.val .chainedNil)
        (some (bstatus.New ⟨32⟩ "outer" none)) (some [1]))) = none := rfl

/-- C9: the trace renderer never faults (it is a total function in the
model); every rendered frame's file name is free of the `"<"` marker
(synthetic frames are silently dropped); with a depth argument `n` it
renders at most `n` frames; and with the depth omitted it renders exactly
the resolvable non-marker frames of the captured stack, in order. -/
theorem claim_C9_tracking :
    (∀ (stack : Option (List Nat)) (resolve : Nat → Option (String × String × Int))
        (depth : List Int) (t : TraceInfo),
        t ∈ Tracking stack resolve depth → t.File.toList.contains '<' = false)
      ∧ (∀ (stack : Option (List Nat)) (resolve : Nat → Option (String × String × Int))
          (n : Int), (Tracking stack resolve [n]).length ≤ n.toNat)
      ∧ (∀ (pcs : List Nat) (resolve : Nat → Option (String × String × Int)),
          Tracking (some pcs) resolve [] = pcs.filterMap (fun p =>
            match resolve (p - 1) with
            | none => none
            | some (fname, file, line) =>
              if file.toList.contains '<' then none else some ⟨fname, file, line⟩)) := by
  refine ⟨?_, ?_, ?_⟩
  · intro stack resolve depth t h
    cases stack with
    | none => simp [Tracking] at h
    | some pcs =>
      simp only [Tracking] at h
      by_cases h0 : pcs.length = 0
      · rw [if_pos h0] at h
        simp at h
      · rw [if_neg h0] at h
        exact trackLoop_file_no_marker _ _ _ _ _ h
  · intro stack resolve n
    cases stack with
    | none => simp [Tracking]
    | some pcs =>
      simp only [Tracking]
      by_cases h0 : pcs.length = 0
      · rw [if_pos h0]; simp
      · rw [if_neg h0]
        have := trackLoop_length_le resolve n pcs 0
        simpa using this
  · intro pcs resolve
    simp only [Tracking]
    by_cases h0 : pcs.length = 0
    · rw [if_pos h0, List.length_eq_zero.mp h0]
      simp
    · rw [if_neg h0]
      exact trackLoop_no_break resolve _ pcs 0 (by simp)

/-- C9 witness: a two-token stack where one frame resolves to a synthetic
`"<"` file and is dropped. -/
theorem claim_C9_witness :
    ((⟨"f", "a.go", 3⟩ : TraceInfo).File.toList.contains '<' = false)
      ∧ (Tracking (some [5, 6])
          (fun p => if p = 4 then some ("f", "a.go", 3) else some ("g", "b<.go", 9))
          [1]).length ≤ (1 : Int).toNat
      ∧ Tracking (some [5, 6])
          (fun p => if p = 4 then some ("f", "a.go", 3) else some ("g", "b<.go", 9)) []
        = [5, 6].filterMap (fun p =>
            match (fun p => if p = 4 then some ("f", "a.go", 3)
                else some ("g", "b<.go", 9) : Nat → Option (String × String × Int)) (p - 1) with
            | none => none
            | some (fname, file, line) =>
              if file.toList.contains '<' then none else some ⟨fname, file, line⟩) :=
  ⟨claim_C9_tracking.1 (some [5, 6])
      (fun p => if p = 4 then some ("f", "a.go", 3) else some ("g", "b<.go", 9)) []
      ⟨"f", "a.go", 3⟩ (by decide),
    claim_C9_tracking.2.1 (some [5, 6])
      (fun p => if p = 4 then some ("f", "a.go", 3) else some ("g", "b<.go", 9)) 1,
    claim_C9_tracking.2.2 [5, 6]
      (fun p => if p = 4 then some ("f", "a.go", 3) else some ("g", "b<.go", 9))⟩

/-- C10 (amended): for every non-nil receiver whose chain is well-formed
(non-nil links with non-nil statuses), `MarshalLogObject` returns a nil
error — the source discards every error returned by the nested
`AddObject` calls (`_ =`) and never assigns its named return — so
structured-log encoding never reports failure to the logging pipeline.
On a nil status it faults instead of returning (see the
counterexample). -/
theorem claim_C10_marshal_nil_error : ∀ (d : defaultError) (k : Nat) (t : Next),
    chainShape d = some (k, t) →
    ∃ fs, defaultError.MarshalLogObject (some d) = some (fs, none) := by
  intro d k t h
  rcases Option.isSome_iff_exists.mp (chainShape_marshalDE k d t h) with ⟨fs, hfs⟩
  exact ⟨fs, by simp [defaultError.MarshalLogObject, hfs]⟩

/-- C10 witness: a concrete well-formed single link. -/
theorem claim_C10_witness :
    chainShape (.mk .noErr (some (bstatus.New ⟨41⟩ "w" none)) none) = some (1, .null)
      ∧ ∃ fs, defaultError.MarshalLogObject
          (some (.mk .noErr (some (bstatus.New ⟨41⟩ "w" none)) none)) = some (fs, none) :=
  ⟨rfl, claim_C10_marshal_nil_error (.mk .noErr (some (bstatus.New ⟨41⟩ "w" none)) none)
    1 .null rfl⟩

/-- C10 counterexample: a non-nil receiver with a nil status panics in
`status.Code()` rather than returning a nil error, so the claim as stated
(for every non-nil receiver) is false. -/
theorem claim_C10_counterexample :
    defaultError.MarshalLogObject (some (.mk .noErr none (some [1]))) = none := rfl

end berror
